import Mathlib

/-!
Shallow embedding of the sprintIR-R20 CO2 sensor driver
(files sprintIRR20.py and arguments_values_helpers.py).

Python floating point arithmetic is idealised as exact rational
arithmetic over the rationals; Python int() truncation toward zero is
modelled by pyInt; the two-decimal rounding performed by the format
string in PPMtoPercentage is modelled by round2 (round half up on the
exact rational, which agrees with CPython away from ties); Python
string slicing on reply bytes is modelled on the underlying character
lists.  The serial transport is modelled as a pure function: either a
poll sequence (one optional line per poll attempt) for the receive
loop, or a reply function from the written command line to the reply
line for the command round trips.
-/

attribute [local semireducible] Rat.mul Rat.inv Rat.add Rat.sub Rat.ofScientific

namespace SprintIR

/-- Python int() applied to a rational: truncation toward zero. -/
def pyInt (q : ℚ) : ℤ := if 0 ≤ q then ⌊q⌋ else ⌈q⌉

/-- Rounding of a rational to two decimal places, modelling the
Python expression float("{:.2f}".format(x)). -/
def round2 (q : ℚ) : ℚ := ((round (q * 100) : ℤ) : ℚ) / 100

/-- A Python number: either an int or a float.  Floats are idealised
as exact rationals; the driver only ever builds floats whose exact
value is a finite decimal, which is where the idealisation is used. -/
inductive PyNum where
  | int (z : ℤ)
  | float (q : ℚ)
deriving DecidableEq

/-- Numeric value of a Python number. -/
def PyNum.toRat : PyNum → ℚ
  | .int z => (z : ℚ)
  | .float q => q

/-- Decimal digit character for a value below ten. -/
def digitChar (d : ℕ) : Char := Char.ofNat (48 + d)

/-- Decimal digit list of a natural number with explicit fuel, so
that the definition is structurally recursive and kernel-reducible. -/
def natReprAux : ℕ → ℕ → List Char
  | 0, _ => []
  | fuel + 1, n =>
    if n < 10 then [digitChar n]
    else natReprAux fuel (n / 10) ++ [digitChar (n % 10)]

/-- Decimal digit list of a natural number, most significant first,
modelling Python str on a non-negative int.  The fuel n + 1 always
suffices because each step floor-divides by ten. -/
def natRepr (n : ℕ) : List Char := natReprAux (n + 1) n

/-- Python str of an int. -/
def pyStrInt (z : ℤ) : String :=
  if z < 0 then "-" ++ ⟨natRepr z.natAbs⟩ else ⟨natRepr z.toNat⟩

/-- Fractional decimal digits of a rational in the interval from zero
up to (not including) one, with fuel; empty when the fraction is zero.
Used only at rationals with a finite decimal expansion. -/
def fracDigits : ℚ → ℕ → List Char
  | _, 0 => []
  | q, fuel + 1 =>
    if q = 0 then []
    else digitChar (⌊q * 10⌋).toNat :: fracDigits (q * 10 - ⌊q * 10⌋) fuel

/-- Python repr of a float whose exact value is a finite decimal:
integer part, a dot, then the fractional digits (a single zero when
the value is integral), with a leading minus sign when negative. -/
def pyStrFloat (q : ℚ) : String :=
  let a := |q|
  let frac := fracDigits (a - ⌊a⌋) 17
  (if q < 0 then "-" else "") ++ ⟨natRepr (⌊a⌋).toNat⟩ ++ "." ++
    (if frac.isEmpty then "0" else ⟨frac⟩)

/-- Python str on a number. -/
def pyStr : PyNum → String
  | .int z => pyStrInt z
  | .float q => pyStrFloat q

/-- Iteration count of the digit loop with explicit fuel, so that
the definition is structurally recursive and kernel-reducible. -/
def natLoopAux : ℕ → ℕ → ℕ
  | 0, _ => 0
  | fuel + 1, n => if n = 0 then 0 else natLoopAux fuel (n / 10) + 1

/-- Count of iterations of the while loop in numberOfDigits: while
n is positive, increment and floor-divide by ten.  The fuel n + 1
always suffices because each step floor-divides by ten. -/
def natLoop (n : ℕ) : ℕ := natLoopAux (n + 1) n

/-- Iteration count of the digit-counting loop on a Python number.
On an int the loop floor-divides by ten while positive; on a float
the first floor division already lands on an integral float. -/
def countLoop : PyNum → ℕ
  | .int z => natLoop z.toNat
  | .float q => if q ≤ 0 then 0 else natLoop (⌊q / 10⌋).toNat + 1

/-- Python string slice s[a:] on the character list of a string. -/
def pySliceFrom (s : String) (a : ℕ) : String := ⟨s.data.drop a⟩

/-- Python string slice s[a:b] on the character list of a string. -/
def pySlice (s : String) (a b : ℕ) : String := ⟨(s.data.drop a).take (b - a)⟩

end SprintIR

namespace hp

open SprintIR

/-- Embedding of numberOfDigits from arguments_values_helpers.py:
one for zero, otherwise the number of floor-divisions by ten needed
to reach zero.  The None branch of the source is not modelled; no
call site passes None. -/
def numberOfDigits (n : PyNum) : ℤ :=
  if n.toRat = 0 then 1 else countLoop n

/-- Embedding of positive from arguments_values_helpers.py. -/
def positive (n : ℤ) : Bool := 0 < n

/-- Embedding of formatArgument5digits from
arguments_values_helpers.py: left-pad the Python str of the value
with zeros according to numberOfDigits. -/
def formatArgument5digits (value : PyNum) : String :=
  let digits := numberOfDigits value
  if digits = 1 then "0000" ++ pyStr value
  else if digits = 2 then "000" ++ pyStr value
  else if digits = 3 then "00" ++ pyStr value
  else if digits = 4 then "0" ++ pyStr value
  else pyStr value

end hp

namespace SprintIR

/-- Exceptions raised by the driver, plus the Python TypeError that
an unvalidated None argument provokes. -/
inductive SensorError where
  | timeout
  | unexpectedReply
  | typeError
deriving DecidableEq, Repr

/-- Outcome of one driver call: a returned integer or a raised
exception. -/
inductive PyOutcome where
  | ret (z : ℤ)
  | exn (e : SensorError)
deriving DecidableEq, Repr

/-- Reply function of a sensor that echoes every command verbatim
behind a one-character type marker. -/
def echoReply (marker : Char) (command : String) : String :=
  ⟨marker :: command.data⟩

/-- Embedding of PPMtoPercentage: minus one on a negative value,
otherwise the value divided by ten thousand rounded to two decimal
places. -/
def PPMtoPercentage (value : ℤ) : ℚ :=
  if value < 0 then -1 else round2 ((value : ℚ) / 10000)

/-- Embedding of correctMeasurement: a fourth-degree polynomial
correction factor for values of at least 1500, a sixth-degree one
below, then truncation toward zero of the compensated quotient. -/
def correctMeasurement (value pressure : ℤ) : ℤ :=
  let v : ℚ := (value : ℚ)
  let Y : ℚ :=
    if 1500 ≤ v then
      2.6661 * (10 : ℚ) ^ (-16 : ℤ) * v ^ 4 - 1.1146 * (10 : ℚ) ^ (-12 : ℤ) * v ^ 3
        + 1.7397 * (10 : ℚ) ^ (-9 : ℤ) * v ^ 2 - 1.2556 * (10 : ℚ) ^ (-6 : ℤ) * v
        - 9.8754 * (10 : ℚ) ^ (-4 : ℤ)
    else
      2.881 * (10 : ℚ) ^ (-38 : ℤ) * v ^ 6 - 9.817 * (10 : ℚ) ^ (-32 : ℤ) * v ^ 5
        + 1.304 * (10 : ℚ) ^ (-25 : ℤ) * v ^ 4 - 8.126 * (10 : ℚ) ^ (-20 : ℤ) * v ^ 3
        + 2.311 * (10 : ℚ) ^ (-14 : ℤ) * v ^ 2 - 2.195 * (10 : ℚ) ^ (-9 : ℤ) * v
        - 1.471 * (10 : ℚ) ^ (-3 : ℤ)
  pyInt (v / (1 + Y * (1013 - (pressure : ℚ))))

/-- Embedding of getCO2Measurement, with the raw reading already
obtained from the transport as an integer (the non-integral-type
guard of the source is subsumed by the integer model): minus one on a
negative raw value, else the scaled value, routed through the
correction when checkCorrection holds and the percentage exceeds one. -/
def getCO2Measurement (raw sf pressure : ℤ) (checkCorrection : Bool) : ℤ :=
  if raw < 0 then -1
  else
    let value := raw * sf
    if checkCorrection ∧ PPMtoPercentage value > 1 then correctMeasurement value pressure
    else value

/-- Coefficients of the high branch polynomial as the specification
lists them, highest degree first. -/
def highCoeffs : List ℚ :=
  [2.6661e-16, -1.1146e-12, 1.7397e-9, -1.2556e-6, -9.8754e-4]

/-- Coefficients of the low branch polynomial as the specification
lists them, highest degree first. -/
def lowCoeffs : List ℚ :=
  [2.881e-38, -9.817e-32, 1.304e-25, -8.126e-20, 2.311e-14, -2.195e-9, -1.471e-3]

/-- Horner evaluation of a coefficient list, highest degree first. -/
def polyEval (coeffs : List ℚ) (x : ℚ) : ℚ :=
  coeffs.foldl (fun acc c => acc * x + c) 0

/-- Specification-side restatement of correctMeasurement, following
the words of the claim: branch on value at least 1500, evaluate the
listed coefficient vector, divide and truncate toward zero. -/
def correctMeasurementSpec (value pressure : ℤ) : ℤ :=
  let Y : ℚ :=
    if 1500 ≤ (value : ℚ) then polyEval highCoeffs (value : ℚ)
    else polyEval lowCoeffs (value : ℚ)
  pyInt ((value : ℚ) / (1 + Y * (1013 - (pressure : ℚ))))

/-- Specification-side parser: read a character list as a decimal
natural number, used to state that a formatted token parses back. -/
def parseDigits (l : List Char) : ℕ :=
  l.foldl (fun a c => a * 10 + (c.toNat - 48)) 0

/-- Embedding of the bounded poll loop inside UART_recv: one line
read per attempt, stopping at the first attempt whose read is not
None, with the attempt budget as fuel.  The transport is the sequence
of per-attempt read results. -/
def uartRecvLoop (transport : ℕ → Option String) : ℕ → ℕ → Option String
  | _, 0 => none
  | i, fuel + 1 =>
    match transport i with
    | some s => some s
    | none => uartRecvLoop transport (i + 1) fuel

/-- Embedding of UART_recv for a non-zero timeout: sixteen poll
attempts per second of timeout, then the SprintIRR20_timeout
exception once the budget is exhausted.  The zero-timeout branch of
the source is an unbounded blocking loop and is not modelled; the
timeout is a positive integer number of seconds, as the Python range
call requires an integral bound. -/
def UART_recv (transport : ℕ → Option String) (timeout : ℕ) : Except SensorError String :=
  match uartRecvLoop transport 0 (16 * timeout) with
  | some r => .ok r
  | none => .error .timeout

/-- Embedding of setDigitalFilter.  The value is an optional integer
so that the None guard of the source is visible.  Returns the list of
command lines written to the transport together with the outcome. -/
def setDigitalFilter (reply : String → String) (value : Option ℤ) :
    List String × PyOutcome :=
  match value with
  | none => ([], .ret (-1))
  | some v =>
    if 65635 < v ∨ ¬ hp.positive v ∨ v = 0 then ([], .ret (-1))
    else
      let value_str := hp.formatArgument5digits (.int v)
      let command := "A " ++ value_str ++ "\r\n"
      let result := pySliceFrom (reply command) 1
      if result ≠ command then ([command], .exn .unexpectedReply)
      else ([command], .ret 0)

/-- Embedding of fineTuneZeroPoint.  The local precondition tests
known_reading twice and never tests known_concentration; a None
known_concentration then raises a Python TypeError at the scaling
division, before any write.  The reply check of the source compares
the sliced reply against None, which never holds, so a delivered
reply always yields return value zero. -/
def fineTuneZeroPoint (reply : String → String) (sf : ℤ)
    (known_reading known_concentration : Option ℤ) : List String × PyOutcome :=
  match known_reading with
  | none => ([], .ret (-1))
  | some kr =>
    if ¬ hp.positive kr then ([], .ret (-1))
    else
      match known_concentration with
      | none => ([], .exn .typeError)
      | some kc =>
        let kr2 := pyInt ((kr : ℚ) / (sf : ℚ))
        let kc2 := pyInt ((kc : ℚ) / (sf : ℚ))
        let command := "F " ++ pyStrInt kr2 ++ " " ++ pyStrInt kc2 ++ "\r\n"
        let _result := pySliceFrom (reply command) 1
        ([command], .ret 0)

/-- Embedding of zeroPointManualSetting: validate the raw value, then
divide by the scaling factor (a Python float division, so the
formatted argument is a float) and send the u command, demanding an
echo. -/
def zeroPointManualSetting (reply : String → String) (value sf : ℤ) :
    List String × PyOutcome :=
  if ¬ hp.positive value then ([], .ret (-1))
  else
    let v : PyNum := .float ((value : ℚ) / (sf : ℚ))
    let value_str := hp.formatArgument5digits v
    let command := "u " ++ value_str ++ "\r\n"
    let result := pySliceFrom (reply command) 1
    if result ≠ command then ([command], .exn .unexpectedReply)
    else ([command], .ret 0)

/-- Embedding of setBackgroundPPMAutozeroing: validate, scale, split
into most and least significant bytes, send the P 00008 command and
echo-check it on the reply with the first byte stripped, then send
the P 00009 command and compare the reply slice [9:14] against the
full command, exactly as the source does. -/
def setBackgroundPPMAutozeroing (reply : String → String) (value sf : ℤ) :
    List String × PyOutcome :=
  if ¬ hp.positive value then ([], .ret (-1))
  else
    let v : ℚ := (value : ℚ) / (sf : ℚ)
    let msb := pyInt (v / 256)
    let lsb := pyInt (v - 256 * msb)
    let msb_str := hp.formatArgument5digits (.int msb)
    let lsb_str := hp.formatArgument5digits (.int lsb)
    let command_msb := "P 00008 " ++ msb_str ++ "\r\n"
    let command_lsb := "P 00009 " ++ lsb_str ++ "\r\n"
    let result_msb := pySliceFrom (reply command_msb) 1
    if result_msb ≠ command_msb then ([command_msb], .exn .unexpectedReply)
    else
      let result_lsb := pySlice (reply command_lsb) 9 14
      if result_lsb ≠ command_lsb then ([command_msb, command_lsb], .exn .unexpectedReply)
      else ([command_msb, command_lsb], .ret 0)

/-- Embedding of pressureToCompensation. -/
def pressureToCompensation (pressure : ℤ) : ℤ :=
  pyInt (8192 + ((1013 - (pressure : ℚ)) * 0.14 / 100) * 8192)

/-- Embedding of compensationToPressure, keeping the collapsed
division term of the source. -/
def compensationToPressure (compensation : ℤ) : ℤ :=
  pyInt (((((compensation : ℚ) - 8192) * 100) / 8192 - (1013 * 0.14) / 0.14) * -1)

/-- Cached calibration state of a session: the compensation value and
the pressure derived from it. -/
structure SensorState where
  compensationValue : ℤ
  pressure : ℤ
deriving DecidableEq, Repr

/-- Session start, from the constructor: cache the compensation value
read from the sensor and derive the pressure from it. -/
def initState (comp : ℤ) : SensorState :=
  { compensationValue := comp, pressure := compensationToPressure comp }

/-- Embedding of setPressureAndCompensationValue: validate, send the
S command, echo-check, and only on success overwrite the cached
compensation value.  The cached pressure is not touched anywhere in
the source. -/
def setPressureAndCompensationValue (reply : String → String) (st : SensorState)
    (value : ℤ) : (List String × PyOutcome) × SensorState :=
  if ¬ hp.positive value then (([], .ret (-1)), st)
  else
    let value_str := hp.formatArgument5digits (.int value)
    let command := "S " ++ value_str ++ "\r\n"
    let result := pySliceFrom (reply command) 1
    if result ≠ command then (([command], .exn .unexpectedReply), st)
    else (([command], .ret 0), { st with compensationValue := value })

end SprintIR

namespace SprintIR

theorem data_append (a b : String) : (a ++ b).data = a.data ++ b.data := rfl

theorem mk_data (s : String) : String.mk s.data = s := rfl

/-- Percentage bound: a scaled value of at most 10049 ppm rounds to a
percentage of at most one, so the correction branch is not taken. -/
theorem PPMtoPercentage_le_one {v : ℤ} (h0 : 0 ≤ v) (h : v ≤ 10049) :
    PPMtoPercentage v ≤ 1 := by
  unfold PPMtoPercentage round2
  rw [if_neg (by omega)]
  have h1 : ((v : ℚ) / 10000 * 100) = (v : ℚ) / 100 := by ring
  rw [h1]
  have hv : (v : ℚ) ≤ 10049 := by exact_mod_cast h
  have h2 : round ((v : ℚ) / 100) ≤ 100 := by
    rw [round_eq]
    have hlt : ⌊(v : ℚ) / 100 + 1 / 2⌋ < 101 := by
      rw [Int.floor_lt]
      push_cast
      linarith
    omega
  have h3 : ((round ((v : ℚ) / 100) : ℤ) : ℚ) ≤ 100 := by exact_mod_cast h2
  linarith

/-- Percentage bound: a scaled value of at least 10051 ppm rounds to a
percentage above one, so the correction branch is taken. -/
theorem one_lt_PPMtoPercentage {v : ℤ} (h : 10051 ≤ v) :
    1 < PPMtoPercentage v := by
  unfold PPMtoPercentage round2
  rw [if_neg (by omega)]
  have h1 : ((v : ℚ) / 10000 * 100) = (v : ℚ) / 100 := by ring
  rw [h1]
  have hv : (10051 : ℚ) ≤ (v : ℚ) := by exact_mod_cast h
  have h2 : (101 : ℤ) ≤ round ((v : ℚ) / 100) := by
    rw [round_eq]
    rw [Int.le_floor]
    push_cast
    linarith
  have h3 : (101 : ℚ) ≤ ((round ((v : ℚ) / 100) : ℤ) : ℚ) := by exact_mod_cast h2
  linarith

/-- Branch lemma: with a non-negative raw value, the measurement is
returned unscaled by the correction whenever the correction flag is
off or the rounded percentage does not exceed one. -/
theorem getCO2Measurement_of_not_corrected {raw sf pressure : ℤ} {cc : Bool}
    (h0 : 0 ≤ raw) (h : cc = false ∨ PPMtoPercentage (raw * sf) ≤ 1) :
    getCO2Measurement raw sf pressure cc = raw * sf := by
  unfold getCO2Measurement
  rw [if_neg (by omega)]
  rw [if_neg]
  rintro ⟨hcc, hgt⟩
  rcases h with h | h
  · rw [h] at hcc
    exact Bool.false_ne_true hcc
  · exact absurd hgt (not_lt.2 h)

/-- Branch lemma: with a non-negative raw value and a rounded
percentage above one, the correction is applied to the scaled value. -/
theorem getCO2Measurement_of_corrected {raw sf pressure : ℤ}
    (h0 : 0 ≤ raw) (h : 1 < PPMtoPercentage (raw * sf)) :
    getCO2Measurement raw sf pressure true = correctMeasurement (raw * sf) pressure := by
  unfold getCO2Measurement
  rw [if_neg (by omega)]
  rw [if_pos ⟨rfl, h⟩]

end SprintIR

namespace SprintIR

/-- Claim C1 (corrected): getCO2Measurement returns the sentinel for
every negative raw reading; for every non-negative raw reading with a
positive scaling factor, whenever the correction branch is not taken
(correction flag off, or scaled value at most 10049 ppm) the returned
value is the scaled ppm raw times scalingFactor, which is
non-negative, and positive exactly when the raw reading is positive;
a raw reading of zero yields zero, which is not positive. -/
theorem getCO2Measurement_sentinel_and_sign (raw sf pressure : ℤ) (cc : Bool) :
    (raw < 0 → getCO2Measurement raw sf pressure cc = -1) ∧
    (0 ≤ raw → 0 < sf → (cc = false ∨ raw * sf ≤ 10049) →
      getCO2Measurement raw sf pressure cc = raw * sf ∧
      0 ≤ raw * sf ∧ (0 < raw ↔ 0 < raw * sf)) := by
  constructor
  · intro hneg
    unfold getCO2Measurement
    rw [if_pos hneg]
  · intro h0 hsf hcase
    have hnn : 0 ≤ raw * sf := mul_nonneg h0 (le_of_lt hsf)
    refine ⟨?_, hnn, ?_⟩
    · refine getCO2Measurement_of_not_corrected h0 ?_
      rcases hcase with h | h
      · exact Or.inl h
      · exact Or.inr (PPMtoPercentage_le_one hnn h)
    · constructor
      · intro hr
        exact mul_pos hr hsf
      · intro hm
        by_contra hr
        push_neg at hr
        have : raw = 0 := le_antisymm hr h0
        rw [this] at hm
        simp at hm

/-- Witness for claim C1 at concrete inputs: a negative raw reading
gives the sentinel, and a positive raw reading gives the positive
scaled value. -/
theorem getCO2Measurement_sentinel_and_sign_witness :
    getCO2Measurement (-3) 2 1013 true = -1 ∧
    (getCO2Measurement 5 2 1013 true = 5 * 2 ∧
      (0 : ℤ) ≤ 5 * 2 ∧ ((0 : ℤ) < 5 ↔ (0 : ℤ) < 5 * 2)) :=
  ⟨(getCO2Measurement_sentinel_and_sign (-3) 2 1013 true).1 (by decide),
   (getCO2Measurement_sentinel_and_sign 5 2 1013 true).2 (by decide) (by decide)
     (Or.inr (by decide))⟩

/-- Counterexample for claim C1 as stated: the raw reading zero is
valid and non-negative, yet the returned value is zero, which is
neither positive nor the sentinel. -/
theorem getCO2Measurement_zero_not_positive :
    getCO2Measurement 0 1 1013 true = 0 ∧
    ¬ 0 < getCO2Measurement 0 1 1013 true ∧
    getCO2Measurement 0 1 1013 true ≠ -1 := by decide

/-- Claim C2 (corrected): with the correction flag on, a non-negative
raw reading and a positive scaling factor, the scaled value is
returned unmodified whenever it is at most 10049 ppm, and the
nonlinear correction is applied whenever it is at least 10051 ppm:
the branch tests the two-decimal rounding of the percentage, not the
bare 10000 ppm threshold.  With scaling factor one and raw reading
450 the returned value is 450 and no correction is applied. -/
theorem getCO2Measurement_correction_threshold (raw sf pressure : ℤ)
    (h0 : 0 ≤ raw) (hsf : 0 < sf) :
    (raw * sf ≤ 10049 → getCO2Measurement raw sf pressure true = raw * sf) ∧
    (10051 ≤ raw * sf →
      getCO2Measurement raw sf pressure true = correctMeasurement (raw * sf) pressure) ∧
    getCO2Measurement 450 1 pressure true = 450 := by
  have hnn : 0 ≤ raw * sf := mul_nonneg h0 (le_of_lt hsf)
  refine ⟨?_, ?_, ?_⟩
  · intro hle
    exact getCO2Measurement_of_not_corrected h0 (Or.inr (PPMtoPercentage_le_one hnn hle))
  · intro hge
    exact getCO2Measurement_of_corrected h0 (one_lt_PPMtoPercentage hge)
  · have h450 : (450 : ℤ) * 1 ≤ 10049 := by decide
    have := @getCO2Measurement_of_not_corrected 450 1 pressure true (by decide)
      (Or.inr (PPMtoPercentage_le_one (by decide) h450))
    simpa using this

/-- Witness for claim C2 at the concrete scenario of the claim. -/
theorem getCO2Measurement_correction_threshold_witness :
    getCO2Measurement 450 1 1013 true = 450 :=
  (getCO2Measurement_correction_threshold 450 1 1013 (by decide) (by decide)).2.2

/-- Counterexample for claim C2 as stated: the scaled value 10001
exceeds 10000 ppm, yet its rounded percentage is exactly one, the
correction branch is not taken and the value is returned unmodified,
while the corrected value at pressure 900 would have been 51. -/
theorem getCO2Measurement_10001_uncorrected :
    PPMtoPercentage 10001 = 1 ∧ (10000 : ℤ) < 10001 ∧
    getCO2Measurement 10001 1 900 true = 10001 ∧
    correctMeasurement 10001 900 = 51 ∧ (51 : ℤ) ≠ 10001 := by decide

end SprintIR

namespace SprintIR

/-- Claim C3 (confirmed): correctMeasurement selects its branch by
comparing the value with 1500, the high branch evaluates the listed
fourth-degree coefficient vector, the low branch the listed
sixth-degree one, and the result is the compensated quotient
truncated toward zero: the embedding agrees with the specification
restatement built from the listed coefficients at every input. -/
theorem correctMeasurement_matches_spec (value pressure : ℤ) :
    correctMeasurement value pressure = correctMeasurementSpec value pressure := by
  simp only [correctMeasurement, correctMeasurementSpec, polyEval, highCoeffs, lowCoeffs,
    List.foldl]
  congr 1
  rcases le_or_lt (1500 : ℚ) ((value : ℚ)) with h | h
  · rw [if_pos h, if_pos h]
    congr 1
    ring_nf
  · rw [if_neg (not_le.2 h), if_neg (not_le.2 h)]
    congr 1
    ring_nf

end SprintIR

namespace SprintIR

/-- Silence below the fuel bound makes the poll loop return none. -/
theorem uartRecvLoop_eq_none (transport : ℕ → Option String) :
    ∀ (fuel i : ℕ), (∀ n, n < fuel → transport (i + n) = none) →
      uartRecvLoop transport i fuel = none := by
  intro fuel
  induction fuel with
  | zero => intro i _; rfl
  | succ f ih =>
    intro i h
    have h0 : transport i = none := by simpa using h 0 (Nat.succ_pos f)
    simp only [uartRecvLoop, h0]
    refine ih (i + 1) (fun n hn => ?_)
    have := h (n + 1) (by omega)
    rwa [show i + (n + 1) = i + 1 + n by omega] at this

/-- The poll loop returns the line of the first yielding attempt when
that attempt falls inside the fuel bound. -/
theorem uartRecvLoop_eq_some (transport : ℕ → Option String) :
    ∀ (fuel i k : ℕ) (s : String), k < fuel →
      (∀ j, j < k → transport (i + j) = none) → transport (i + k) = some s →
      uartRecvLoop transport i fuel = some s := by
  intro fuel
  induction fuel with
  | zero => intro i k s hk; omega
  | succ f ih =>
    intro i k s hk hsilent hyield
    cases k with
    | zero =>
      have h0 : transport i = some s := by simpa using hyield
      simp only [uartRecvLoop, h0]
    | succ k' =>
      have h0 : transport i = none := by simpa using hsilent 0 (Nat.succ_pos k')
      simp only [uartRecvLoop, h0]
      refine ih (i + 1) k' s (by omega) (fun j hj => ?_) ?_
      · have := hsilent (j + 1) (by omega)
        rwa [show i + (j + 1) = i + 1 + j by omega] at this
      · rwa [show i + (k' + 1) = i + 1 + k' by omega] at hyield

/-- Claim C4 (confirmed): for every positive integral timeout the
attempt budget is 16 times the timeout, which equals the ceiling of
16 times the timeout; a transport silent on all budgeted attempts
makes UART_recv raise the timeout exception, whatever the transport
does on later attempts, so the loop polls exactly the budget and
never gives up earlier; and the loop returns successfully the line of
the first attempt that yields one, whenever that attempt is inside
the budget. -/
theorem UART_recv_timeout_behaviour (t : ℕ) (transport : ℕ → Option String)
    (_ht : 0 < t) :
    ⌈(16 * (t : ℚ))⌉ = ((16 * t : ℕ) : ℤ) ∧
    ((∀ n, n < 16 * t → transport n = none) → UART_recv transport t = .error .timeout) ∧
    (∀ k s, k < 16 * t → (∀ j, j < k → transport j = none) → transport k = some s →
      UART_recv transport t = .ok s) := by
  refine ⟨?_, ?_, ?_⟩
  · have hc : (16 * (t : ℚ)) = ((16 * t : ℕ) : ℚ) := by push_cast; ring
    rw [hc, Int.ceil_natCast]
  · intro h
    unfold UART_recv
    rw [uartRecvLoop_eq_none transport (16 * t) 0 (fun n hn => by simpa using h n hn)]
  · intro k s hk hs hy
    unfold UART_recv
    rw [uartRecvLoop_eq_some transport (16 * t) 0 k s hk
      (fun j hj => by simpa using hs j hj) (by simpa using hy)]

/-- Witness for claim C4 at timeout one: the silent transport raises
the timeout exception, and a transport that first yields on the
fourth attempt returns that line. -/
theorem UART_recv_timeout_behaviour_witness :
    UART_recv (fun _ => none) 1 = .error .timeout ∧
    UART_recv (fun n => if n = 3 then some "Z 00450" else none) 1 = .ok "Z 00450" := by
  constructor
  · exact (UART_recv_timeout_behaviour 1 (fun _ => none) (by decide)).2.1
      (fun n _ => rfl)
  · exact (UART_recv_timeout_behaviour 1 (fun n => if n = 3 then some "Z 00450" else none)
      (by decide)).2.2 3 "Z 00450" (by decide)
      (fun j hj => by simp [show j ≠ 3 by omega]) (by simp)

end SprintIR

namespace SprintIR

/-- The five-character slice [9:14] of any reply is strictly shorter
than the least-significant-byte command line, so the comparison in
setBackgroundPPMAutozeroing can never succeed. -/
theorem setBackground_lsb_slice_ne (r lsbStr : String) :
    pySlice r 9 14 ≠ "P 00009 " ++ lsbStr ++ "\r\n" := by
  intro heq
  have hd : ((r.data.drop 9).take 5) = ("P 00009 " ++ lsbStr ++ "\r\n").data := by
    have := congrArg String.data heq
    simpa [pySlice] using this
  have hl := congrArg List.length hd
  rw [List.length_take, data_append, data_append, List.length_append,
    List.length_append] at hl
  have h8 : ("P 00009 " : String).data.length = 8 := by decide
  have h2 : ("\r\n" : String).data.length = 2 := by decide
  omega

/-- Claim C5 (code_bug): with value 400 and scaling factor 1 the two
commands are exactly the claimed ones, but even against a sensor that
echoes both commands perfectly the call raises the unexpected-reply
exception, because the source compares the reply slice [9:14] of the
second echo against the full fifteen-character command; indeed no
reply function whatsoever can make the call return success. -/
theorem setBackgroundPPMAutozeroing_never_succeeds :
    setBackgroundPPMAutozeroing (echoReply 'P') 400 1 =
      (["P 00008 00001\r\n", "P 00009 00144\r\n"], .exn .unexpectedReply) ∧
    ∀ (reply : String → String) (value sf : ℤ),
      (setBackgroundPPMAutozeroing reply value sf).2 ≠ .ret 0 := by
  constructor
  · decide
  · intro reply value sf
    unfold setBackgroundPPMAutozeroing
    dsimp only
    split
    · simp
    · split
      · simp
      · split
        · simp
        · next h =>
            exact absurd (not_not.mp h) (setBackground_lsb_slice_ne _ _)

end SprintIR

namespace SprintIR

set_option maxRecDepth 4000

/-- Claim C6 (corrected): the two conversions are not inverses.  For
every pressure in the realistic range the round trip recovers, within
one millibar, not the pressure itself but the damped value
1013 minus 0.14 times (1013 minus pressure); only near 1013 mbar does
that coincide with the input pressure. -/
theorem pressure_roundtrip_damped :
    ∀ p ∈ Finset.Icc (800 : ℤ) 1100,
      |((compensationToPressure (pressureToCompensation p) : ℚ)) -
        (1013 - 0.14 * (1013 - (p : ℚ)))| ≤ 1 := by decide

/-- Witness for claim C6 at pressure 1013, where the damped value
coincides with the input. -/
theorem pressure_roundtrip_damped_witness :
    |((compensationToPressure (pressureToCompensation 1013) : ℚ)) -
      (1013 - 0.14 * (1013 - ((1013 : ℤ) : ℚ)))| ≤ 1 :=
  pressure_roundtrip_damped 1013 (by decide)

/-- Counterexample for claim C6 as stated: the in-range pressure 1000
round-trips to 1011, which is further than one millibar from 1000. -/
theorem pressure_roundtrip_1000_counterexample :
    compensationToPressure (pressureToCompensation 1000) = 1011 ∧
    (800 : ℤ) ≤ 1000 ∧ (1000 : ℤ) ≤ 1100 ∧
    1 < |compensationToPressure (pressureToCompensation 1000) - 1000| := by decide

end SprintIR

namespace SprintIR

theorem natReprAux_stable :
    ∀ (f f' n : ℕ), n < f → n < f' → natReprAux f n = natReprAux f' n := by
  intro f
  induction f with
  | zero => intro f' n h; omega
  | succ f ih =>
    intro f' n hf hf'
    cases f' with
    | zero => omega
    | succ f'' =>
      have e1 : natReprAux (f + 1) n =
          if n < 10 then [digitChar n]
          else natReprAux f (n / 10) ++ [digitChar (n % 10)] := rfl
      have e2 : natReprAux (f'' + 1) n =
          if n < 10 then [digitChar n]
          else natReprAux f'' (n / 10) ++ [digitChar (n % 10)] := rfl
      rw [e1, e2]
      by_cases h : n < 10
      · rw [if_pos h, if_pos h]
      · rw [if_neg h, if_neg h]
        have hdiv : n / 10 < n := Nat.div_lt_self (by omega) (by omega)
        rw [ih f'' (n / 10) (by omega) (by omega)]

theorem natRepr_eq (n : ℕ) :
    natRepr n = if n < 10 then [digitChar n]
      else natRepr (n / 10) ++ [digitChar (n % 10)] := by
  have e1 : natRepr n =
      if n < 10 then [digitChar n]
      else natReprAux n (n / 10) ++ [digitChar (n % 10)] := rfl
  rw [e1]
  by_cases h : n < 10
  · rw [if_pos h, if_pos h]
  · rw [if_neg h, if_neg h]
    have hdiv : n / 10 < n := Nat.div_lt_self (by omega) (by omega)
    rw [natReprAux_stable n (n / 10 + 1) (n / 10) hdiv (Nat.lt_succ_self _)]
    rfl

theorem natLoopAux_stable :
    ∀ (f f' n : ℕ), n < f → n < f' → natLoopAux f n = natLoopAux f' n := by
  intro f
  induction f with
  | zero => intro f' n h; omega
  | succ f ih =>
    intro f' n hf hf'
    cases f' with
    | zero => omega
    | succ f'' =>
      have e1 : natLoopAux (f + 1) n =
          if n = 0 then 0 else natLoopAux f (n / 10) + 1 := rfl
      have e2 : natLoopAux (f'' + 1) n =
          if n = 0 then 0 else natLoopAux f'' (n / 10) + 1 := rfl
      rw [e1, e2]
      by_cases h : n = 0
      · rw [if_pos h, if_pos h]
      · rw [if_neg h, if_neg h]
        have hdiv : n / 10 < n := Nat.div_lt_self (by omega) (by omega)
        rw [ih f'' (n / 10) (by omega) (by omega)]

theorem natLoop_eq (n : ℕ) :
    natLoop n = if n = 0 then 0 else natLoop (n / 10) + 1 := by
  have e1 : natLoop n = if n = 0 then 0 else natLoopAux n (n / 10) + 1 := rfl
  rw [e1]
  by_cases h : n = 0
  · rw [if_pos h, if_pos h]
  · rw [if_neg h, if_neg h]
    have hdiv : n / 10 < n := Nat.div_lt_self (by omega) (by omega)
    rw [natLoopAux_stable n (n / 10 + 1) (n / 10) hdiv (Nat.lt_succ_self _)]
    rfl

theorem natRepr_length (n : ℕ) (h : 0 < n) : (natRepr n).length = natLoop n := by
  induction n using Nat.strong_induction_on with
  | _ n ih =>
    by_cases h10 : n < 10
    · rw [natRepr_eq, if_pos h10, natLoop_eq, if_neg (by omega)]
      have h0 : n / 10 = 0 := by omega
      rw [h0, natLoop_eq, if_pos rfl]
      simp
    · rw [natRepr_eq, if_neg h10, natLoop_eq, if_neg (by omega), List.length_append]
      have hdiv : n / 10 < n := Nat.div_lt_self (by omega) (by omega)
      rw [ih (n / 10) hdiv (by omega)]
      simp

theorem digitChar_toNat {d : ℕ} (h : d < 10) : (digitChar d).toNat = 48 + d := by
  interval_cases d <;> decide

theorem foldl_natRepr (n : ℕ) :
    ∀ a : ℕ, (natRepr n).foldl (fun a c => a * 10 + (c.toNat - 48)) a =
      a * 10 ^ (natRepr n).length + n := by
  induction n using Nat.strong_induction_on with
  | _ n ih =>
    intro a
    by_cases h10 : n < 10
    · rw [natRepr_eq, if_pos h10]
      simp only [List.foldl, List.length_cons, List.length_nil, pow_one, zero_add]
      rw [digitChar_toNat h10]
      omega
    · rw [natRepr_eq, if_neg h10, List.foldl_append, List.length_append]
      have hdiv : n / 10 < n := Nat.div_lt_self (by omega) (by omega)
      rw [ih (n / 10) hdiv a]
      simp only [List.foldl, List.length_cons, List.length_nil, zero_add, pow_add, pow_one]
      rw [digitChar_toNat (Nat.mod_lt n (by omega))]
      have hmod : 48 + n % 10 - 48 = n % 10 := by omega
      rw [hmod]
      have hdm := Nat.div_add_mod n 10
      nlinarith [hdm]

theorem parseDigits_natRepr (n : ℕ) : parseDigits (natRepr n) = n := by
  unfold parseDigits
  rw [foldl_natRepr n 0]
  simp

theorem parseDigits_zero_padded (k : ℕ) (l : List Char) :
    parseDigits (List.replicate k '0' ++ l) = parseDigits l := by
  induction k with
  | zero => simp
  | succ k ih =>
    rw [List.replicate_succ, List.cons_append]
    unfold parseDigits at ih ⊢
    simpa using ih

theorem natLoop_le (k : ℕ) : ∀ n, n < 10 ^ k → natLoop n ≤ k := by
  induction k with
  | zero =>
    intro n h
    have h0 : n = 0 := by simpa using h
    subst h0
    rw [natLoop_eq, if_pos rfl]
  | succ k ih =>
    intro n h
    rw [natLoop_eq]
    by_cases h0 : n = 0
    · simp [h0]
    · rw [if_neg h0]
      have hp : (10 : ℕ) ^ (k + 1) = 10 ^ k * 10 := pow_succ 10 k
      have hlt : n / 10 < 10 ^ k := by
        rw [Nat.div_lt_iff_lt_mul (by omega)]
        omega
      exact Nat.succ_le_succ (ih (n / 10) hlt)

theorem le_natLoop (k : ℕ) : ∀ n, 10 ^ k ≤ n → k + 1 ≤ natLoop n := by
  induction k with
  | zero =>
    intro n h
    simp only [pow_zero] at h
    rw [natLoop_eq, if_neg (by omega)]
    omega
  | succ k ih =>
    intro n h
    have hp : (10 : ℕ) ^ (k + 1) = 10 ^ k * 10 := pow_succ 10 k
    have hpos : 0 < (10 : ℕ) ^ k := pow_pos (by omega) k
    rw [natLoop_eq, if_neg (by omega)]
    have hd : 10 ^ k ≤ n / 10 := by
      rw [Nat.le_div_iff_mul_le (by omega)]
      omega
    have := ih (n / 10) hd
    omega


theorem length_append_data (a b : String) :
    (a ++ b).length = a.data.length + b.data.length := by
  show (a ++ b).data.length = _
  rw [data_append, List.length_append]

theorem pad_format_ok (k v : ℕ) (hv : 0 < v) :
    ((⟨List.replicate k '0'⟩ : String) ++ (⟨natRepr v⟩ : String)).length
        = k + natLoop v ∧
    parseDigits ((⟨List.replicate k '0'⟩ : String) ++ (⟨natRepr v⟩ : String)).data = v := by
  constructor
  · rw [length_append_data]
    show (List.replicate k '0').length + (natRepr v).length = _
    rw [List.length_replicate, natRepr_length v hv]
  · rw [data_append]
    show parseDigits (List.replicate k '0' ++ natRepr v) = v
    rw [parseDigits_zero_padded, parseDigits_natRepr]

/-- Claim C7 (corrected): for every integer v up to 99999 the
formatted token has length exactly five and parses back to v.  The
second half of the claim fails in the code: the zero-point setters
divide the value by the scaling factor before formatting, producing a
Python float whose token carries a decimal suffix (see the
counterexample theorem). -/
theorem formatArgument5digits_roundtrip (v : ℕ) (h : v ≤ 99999) :
    (hp.formatArgument5digits (PyNum.int (v : ℤ))).length = 5 ∧
    parseDigits (hp.formatArgument5digits (PyNum.int (v : ℤ))).data = v := by
  by_cases h0 : v = 0
  · subst h0
    constructor <;> decide
  · have hnum : hp.numberOfDigits (PyNum.int (v : ℤ)) = ((natLoop v : ℕ) : ℤ) := by
      unfold hp.numberOfDigits
      rw [if_neg]
      · simp only [countLoop, Int.toNat_natCast]
      · simp only [PyNum.toRat]
        exact_mod_cast h0
    have hstr : pyStr (PyNum.int (v : ℤ)) = ⟨natRepr v⟩ := by
      simp only [pyStr, pyStrInt]
      rw [if_neg (by exact_mod_cast Int.not_lt.2 (Int.natCast_nonneg v)), Int.toNat_natCast]
    have hL1 : 1 ≤ natLoop v := by
      have := le_natLoop 0 v (by simpa using Nat.one_le_iff_ne_zero.2 h0)
      omega
    have hL5 : natLoop v ≤ 5 := natLoop_le 5 v (by norm_num; omega)
    have hlen : (natRepr v).length = natLoop v := natRepr_length v (by omega)
    obtain ⟨L, hL⟩ : ∃ L, natLoop v = L := ⟨_, rfl⟩
    rw [hL] at hL1 hL5 hlen hnum
    unfold hp.formatArgument5digits
    dsimp only
    rw [hnum, hstr]
    interval_cases L
    · rw [if_pos (by norm_num)]
      rw [show ("0000" : String) = ⟨List.replicate 4 '0'⟩ from by decide]
      have hpk := pad_format_ok 4 v (by omega)
      rw [hL] at hpk
      exact ⟨by rw [hpk.1], hpk.2⟩
    · rw [if_neg (by norm_num), if_pos (by norm_num)]
      rw [show ("000" : String) = ⟨List.replicate 3 '0'⟩ from by decide]
      have hpk := pad_format_ok 3 v (by omega)
      rw [hL] at hpk
      exact ⟨by rw [hpk.1], hpk.2⟩
    · rw [if_neg (by norm_num), if_neg (by norm_num), if_pos (by norm_num)]
      rw [show ("00" : String) = ⟨List.replicate 2 '0'⟩ from by decide]
      have hpk := pad_format_ok 2 v (by omega)
      rw [hL] at hpk
      exact ⟨by rw [hpk.1], hpk.2⟩
    · rw [if_neg (by norm_num), if_neg (by norm_num), if_neg (by norm_num),
        if_pos (by norm_num)]
      rw [show ("0" : String) = ⟨List.replicate 1 '0'⟩ from by decide]
      have hpk := pad_format_ok 1 v (by omega)
      rw [hL] at hpk
      exact ⟨by rw [hpk.1], hpk.2⟩
    · rw [if_neg (by norm_num), if_neg (by norm_num), if_neg (by norm_num),
        if_neg (by norm_num)]
      constructor
      · show (natRepr v).length = 5
        rw [hlen]
      · exact parseDigits_natRepr v

/-- Witness for claim C7 at the value 42. -/
theorem formatArgument5digits_roundtrip_witness :
    (hp.formatArgument5digits (PyNum.int ((42 : ℕ) : ℤ))).length = 5 ∧
    parseDigits (hp.formatArgument5digits (PyNum.int ((42 : ℕ) : ℤ))).data = 42 :=
  formatArgument5digits_roundtrip 42 (by decide)

/-- Counterexample for claim C7 as stated: zeroPointManualSetting
with value 400 and scaling factor 1 sends the command built from the
float 400.0, whose formatted token is the seven-character 00400.0,
not a fixed five-character decimal. -/
theorem zeroPointManualSetting_float_token :
    (zeroPointManualSetting (echoReply 'u') 400 1).1 = ["u 00400.0\r\n"] ∧
    hp.formatArgument5digits (PyNum.float ((400 : ℚ) / 1)) = "00400.0" ∧
    (hp.formatArgument5digits (PyNum.float ((400 : ℚ) / 1))).length ≠ 5 := by decide

end SprintIR
namespace SprintIR

/-- Claim C8 (corrected): the pressure field is derived from the
compensation value at session start, and setPressureAndCompensationValue
updates the cached compensation value only when the echo-checked round
trip returns success, leaving the whole state untouched on validation
failure or on an unexpected reply; but the source never recomputes the
pressure field, which therefore survives every call unchanged. -/
theorem setPressureAndCompensationValue_cache (reply : String → String)
    (st : SensorState) (value c : ℤ) :
    (initState c).pressure = compensationToPressure (initState c).compensationValue ∧
    (value ≤ 0 → setPressureAndCompensationValue reply st value = (([], .ret (-1)), st)) ∧
    (setPressureAndCompensationValue reply st value).2.pressure = st.pressure ∧
    (∀ e, (setPressureAndCompensationValue reply st value).1.2 = .exn e →
      (setPressureAndCompensationValue reply st value).2 = st) ∧
    (0 < value → (setPressureAndCompensationValue reply st value).1.2 = .ret 0 →
      (setPressureAndCompensationValue reply st value).2 =
        { st with compensationValue := value }) := by
  refine ⟨rfl, ?_, ?_, ?_, ?_⟩
  · intro hv
    unfold setPressureAndCompensationValue
    rw [if_pos (by simp [hp.positive]; omega)]
  · unfold setPressureAndCompensationValue
    dsimp only
    split
    · rfl
    · split
      · rfl
      · rfl
  · intro e
    unfold setPressureAndCompensationValue
    dsimp only
    split
    · intro _
      rfl
    · split
      · intro _
        rfl
      · intro h
        simp at h
  · intro hv
    unfold setPressureAndCompensationValue
    dsimp only
    split
    · intro h
      simp at h
    · split
      · intro h
        simp at h
      · intro _
        rfl

/-- Witness for claim C8: a successful set against an echoing sensor
overwrites the cached compensation value and nothing else. -/
theorem setPressureAndCompensationValue_cache_witness :
    (setPressureAndCompensationValue (echoReply 'S') (initState 8192) 9000).2 =
      { initState 8192 with compensationValue := 9000 } :=
  (setPressureAndCompensationValue_cache (echoReply 'S') (initState 8192) 9000 0).2.2.2.2
    (by decide) (by decide)

/-- Counterexample for claim C8 as stated: after a successful set of
the compensation value 9000 on a session started at 8192, the cached
pressure is still 1013 although the pressure derived from the new
compensation value is 1003: the invariant does not hold after the
operation because the pressure is never recomputed. -/
theorem setPressure_pressure_stale :
    (setPressureAndCompensationValue (echoReply 'S') (initState 8192) 9000).1.2 = .ret 0 ∧
    (setPressureAndCompensationValue (echoReply 'S') (initState 8192) 9000).2.compensationValue
      = 9000 ∧
    (setPressureAndCompensationValue (echoReply 'S') (initState 8192) 9000).2.pressure = 1013 ∧
    compensationToPressure 9000 = 1003 ∧
    (setPressureAndCompensationValue (echoReply 'S') (initState 8192) 9000).2.pressure ≠
      compensationToPressure
        ((setPressureAndCompensationValue (echoReply 'S')
          (initState 8192) 9000).2.compensationValue) := by decide

/-- Claim C9 (code_bug): the validation bound in the source is 65635,
a transposition of the documented 65535 that the comment block in the
same file states; the out-of-range value 65600 passes the local check,
the command is written to the transport and the call returns success
instead of the sentinel. -/
theorem setDigitalFilter_accepts_65600 :
    (65535 : ℤ) < 65600 ∧
    setDigitalFilter (echoReply 'A') (some 65600) = (["A 65600\r\n"], .ret 0) := by decide

/-- Claim C10 (corrected): the precondition of fineTuneZeroPoint
tests known_reading twice and never known_concentration; with a
positive known_reading and any integer known_concentration the call
is not rejected, scales both arguments and sends the resulting
command; with a null known_concentration it is likewise not rejected,
but the unvalidated scaling division raises a TypeError before
anything is written to the transport. -/
theorem fineTuneZeroPoint_validates_only_first (reply : String → String)
    (sf kr kc : ℤ) (hkr : 0 < kr) :
    fineTuneZeroPoint reply sf (some kr) (some kc) =
      (["F " ++ pyStrInt (pyInt ((kr : ℚ) / (sf : ℚ))) ++ " " ++
          pyStrInt (pyInt ((kc : ℚ) / (sf : ℚ))) ++ "\r\n"], .ret 0) ∧
    fineTuneZeroPoint reply sf (some kr) none = ([], .exn .typeError) := by
  constructor
  · simp only [fineTuneZeroPoint]
    rw [if_neg (by simp [hp.positive]; omega)]
  · simp only [fineTuneZeroPoint]
    rw [if_neg (by simp [hp.positive]; omega)]

/-- Witness for claim C10: reading 100, concentration minus 50,
scaling factor one: the negative concentration is not rejected and is
sent scaled; the null concentration raises the TypeError. -/
theorem fineTuneZeroPoint_validates_only_first_witness :
    fineTuneZeroPoint (echoReply 'F') 1 (some 100) (some (-50)) =
      (["F 100 -50\r\n"], .ret 0) ∧
    fineTuneZeroPoint (echoReply 'F') 1 (some 100) none = ([], .exn .typeError) := by
  have h := fineTuneZeroPoint_validates_only_first (echoReply 'F') 1 100 (-50) (by decide)
  refine ⟨?_, h.2⟩
  rw [h.1]
  decide

/-- Counterexample for claim C10 as stated: with a positive reading
and a null concentration the call does not send anything over the
transport; it raises a TypeError at the scaling step instead. -/
theorem fineTuneZeroPoint_null_concentration_crashes :
    fineTuneZeroPoint (echoReply 'F') 1 (some 100) none = ([], .exn .typeError) ∧
    (fineTuneZeroPoint (echoReply 'F') 1 (some 100) none).1 = [] := by decide

end SprintIR
